import Mathlib

/-!
Shallow embedding of `src/crates/relayer/src/lib.rs` from the bitcoin-da
repository: a Bitcoin data-availability relayer that writes byte payloads
into Taproot script paths (commit/reveal) and reads them back by
template-matching the revealed script.

Modelling conventions:
* Rust `u8`/`u64`/`usize` values are `Nat`; byte strings are `List Nat`.
* Fallible Rust calls are `Option`/`Except`; Rust panics (`unwrap` on
  `None`/`Err`, `panic!`, out-of-bounds `Vec` indexing) are the
  `RunResult.panic` constructor.
* The secp256k1 / Taproot primitives supplied by the `bitcoin` crate
  dependency are modelled as an abstract, deterministic `Crypto` bundle.
  Fixed-size return types of that crate become length laws: a
  `secp256k1::PublicKey::serialize` is a `[u8; 33]` compressed key and a
  Schnorr signature is a `[u8; 64]` value.
* The `bitcoincore_rpc` client is an oracle `Client` of pure functions;
  an RPC `Err` outcome is `none`.
-/

set_option maxRecDepth 40000

namespace BitcoinDA

/-- Outcome of running a piece of Rust code that may panic: either a value
or an aborted process carrying the panic message. -/
inductive RunResult (α : Type) where
  | ok : α → RunResult α
  | panic : String → RunResult α
deriving DecidableEq

/-- The four protocol tag bytes, ASCII "bark" (`PROTOCOL_ID` in the source). -/
def PROTOCOL_ID : List Nat := [0x62, 0x61, 0x72, 0x6b]

/-- Fixed spender key WIF constant (`BOB_PRIVATE_KEY`). -/
def BOB_PRIVATE_KEY : String := "5JoQtsKQuH8hC9MyvfJAqo6qmKLm8ePYNucs7tPu2YxG12trzBt"

/-- Fixed internal key WIF constant (`INTERNAL_PRIVATE_KEY`). -/
def INTERNAL_PRIVATE_KEY : String := "5JGgKfRy6vEcWBpLJV5FXUfMGNXzvdWzQHUM1rVLEUJfvZUSwvS"

/-- The `BitcoinError` enum of the source, verbatim. -/
inductive BitcoinError where
  | InvalidAddress
  | SendToAddressError
  | BadAmount
  | PrivateKeyErr
  | InvalidTxHash
  | ControlBlockErr
  | TransactionErr
  | RevealErr
deriving DecidableEq

/-- Script opcode byte for `OP_0` / `OP_FALSE`. -/
def OP_FALSE : Nat := 0x00

/-- Script opcode byte for `OP_IF`. -/
def OP_IF : Nat := 0x63

/-- Script opcode byte for `OP_ENDIF`. -/
def OP_ENDIF : Nat := 0x68

/-- Script opcode byte for `OP_CHECKSIG`. -/
def OP_CHECKSIG : Nat := 0xac

/-- Script opcode byte for `OP_PUSHNUM_1`. -/
def OP_PUSHNUM_1 : Nat := 0x51

/-- Byte encoding of one data push emitted by `Builder::push_slice` of the
`bitcoin` crate: a length prefix (direct length byte, `OP_PUSHDATA1`,
`OP_PUSHDATA2` or `OP_PUSHDATA4`, length little-endian) followed by the
raw data bytes. -/
def pushEncode (data : List Nat) : List Nat :=
  if data.length ≤ 75 then data.length :: data
  else if data.length ≤ 0xff then 0x4c :: data.length :: data
  else if data.length ≤ 0xffff then
    0x4d :: data.length % 256 :: data.length / 256 :: data
  else
    0x4e :: data.length % 256 :: data.length / 256 % 256 ::
      data.length / 65536 % 256 :: data.length / 16777216 :: data

/-- The `chunk_slice` function of the source: repeatedly take the next
`chunk_size` bytes until the slice is exhausted.  The source's `while`
loop never terminates when `chunk_size = 0` (then `end = i` forever); the
source only ever calls it with `chunk_size = 520`, and the model returns
`[]` on that dead branch. -/
def chunk_slice (slice : List Nat) (chunk_size : Nat) : List (List Nat) :=
  if h : slice = [] ∨ chunk_size = 0 then []
  else slice.take chunk_size :: chunk_slice (slice.drop chunk_size) chunk_size
termination_by slice.length
decreasing_by
  push_neg at h
  simp only [List.length_drop]
  exact Nat.sub_lt (List.length_pos.mpr h.1) (Nat.pos_of_ne_zero h.2)

/-- Opaque handle for a parsed `PrivateKey` (contents irrelevant to the
relayer logic; only its identity matters). -/
structure PrivKey where
  wif : String
deriving DecidableEq

/-- A secp256k1 public key, represented by its compressed 33-byte
serialization `ser` (the value of `PublicKey::serialize`). -/
structure PubKey where
  ser : List Nat
deriving DecidableEq

/-- An x-only public key, represented by its 32-byte serialization. -/
structure XOnly where
  ser : List Nat
deriving DecidableEq

/-- Address types distinguished by `Address::address_type()`. -/
inductive AddrType where
  | p2pkh
  | p2sh
  | p2wpkh
  | p2wsh
  | p2tr
deriving DecidableEq

/-- A parsed Bitcoin address: the relayer only ever inspects its
`address_type()` and forwards it to `send_to_address`. -/
structure AddressM where
  addrType : Option AddrType
deriving DecidableEq

/-- Transaction ids are abstract identifiers. -/
abbrev Txid := Nat

/-- An outpoint: reference to an output of a previous transaction. -/
structure OutPointM where
  txid : Txid
  vout : Nat
deriving DecidableEq

/-- A transaction output: amount in satoshi plus locking script bytes. -/
structure TxOutM where
  value : Nat
  script_pubkey : List Nat
deriving DecidableEq

/-- A transaction input, including its witness stack (a list of byte
strings). -/
structure TxInM where
  previous_output : OutPointM
  script_sig : List Nat
  sequence : Nat
  witness : List (List Nat)
deriving DecidableEq

/-- A Bitcoin transaction as used by the relayer. -/
structure TransactionM where
  version : Nat
  lock_time : Nat
  input : List TxInM
  output : List TxOutM
deriving DecidableEq

/-- A block: the relayer only scans its transaction list. -/
structure BlockM where
  txdata : List TransactionM
deriving DecidableEq

/-- Deterministic model of the cryptographic primitives the source takes
from the `bitcoin`/`secp256k1` crates.  `outputKey i s` is the tweaked
output key obtained by `TaprootBuilder::new().add_leaf(0, s)` followed by
`finalize` with internal key `i` (always succeeds for a single depth-0
leaf); `controlBlock i s` is `control_block((s, TapScript))` of that same
finalized tree.  The two length laws record the fixed-size array types
`[u8; 33]` (compressed SEC public key serialization) and `[u8; 64]`
(Schnorr signature) of the Rust API. -/
structure Crypto where
  fromWif : String → Option PrivKey
  publicKey : PrivKey → PubKey
  xonly : PubKey → XOnly
  outputKey : XOnly → List Nat → XOnly
  controlBlock : XOnly → List Nat → Option (List Nat)
  sighash : TransactionM → Nat → List TxOutM → List Nat
  signSchnorr : List Nat → PrivKey → List Nat
  p2trAddress : XOnly → String
  addressFromStr : String → Option AddressM
  txidOf : TransactionM → Txid
  publicKey_ser_len : ∀ k, (publicKey k).ser.length = 33
  signSchnorr_len : ∀ m k, (signSchnorr m k).length = 64

/-- Oracle model of the `bitcoincore_rpc` client: each RPC is a pure
function, `none` standing for an `Err` reply. -/
structure Client where
  get_raw_transaction : Txid → Option TransactionM
  send_raw_transaction : TransactionM → Option Txid
  send_to_address : AddressM → Nat → Option Txid
  get_block_hash : Nat → Option Nat
  get_block : Nat → Option BlockM

/-- The embedding script built inside `create_taproot_address`
(lines 78-89): `OP_FALSE OP_IF <push(chunk)>* OP_ENDIF
<push(pubkey serialization)> OP_CHECKSIG`, with `chunk_slice` at 520. -/
def cta_script (pub_key : PubKey) (embedded_data : List Nat) : List Nat :=
  [OP_FALSE, OP_IF] ++ ((chunk_slice embedded_data 520).map pushEncode).flatten
    ++ [OP_ENDIF] ++ pushEncode pub_key.ser ++ [OP_CHECKSIG]

/-- The embedding script rebuilt inside `reveal_tx` (lines 202-213); the
source duplicates the builder code of `create_taproot_address` verbatim. -/
def reveal_script (pub_key : PubKey) (embedded_data : List Nat) : List Nat :=
  [OP_FALSE, OP_IF] ++ ((chunk_slice embedded_data 520).map pushEncode).flatten
    ++ [OP_ENDIF] ++ pushEncode pub_key.ser ++ [OP_CHECKSIG]

/-- `create_taproot_address` (lines 72-108).  The `add_leaf`/`finalize`
unwraps always succeed for a fresh builder with one depth-0 leaf; the
`from_wif(INTERNAL_PRIVATE_KEY).unwrap()` panics if that parse fails. -/
def create_taproot_address (c : Crypto) (embedded_data : List Nat) :
    RunResult (Except BitcoinError String) :=
  match c.fromWif BOB_PRIVATE_KEY with
  | some priv_key =>
    let pub_key := c.publicKey priv_key
    let pk_script := cta_script pub_key embedded_data
    match c.fromWif INTERNAL_PRIVATE_KEY with
    | none => .panic "called Option::unwrap on a None value"
    | some internal_pkey =>
      let internal_pub_key := c.publicKey internal_pkey
      let output_key := c.outputKey (c.xonly internal_pub_key) pk_script
      .ok (.ok (c.p2trAddress output_key))
  | none => .ok (.error .PrivateKeyErr)

/-- `pay_to_taproot_script` (lines 110-117): `OP_PUSHNUM_1 <push(key)>`.
The source's `Result` is always `Ok`. -/
def pay_to_taproot_script (taproot_key : XOnly) : List Nat :=
  [OP_PUSHNUM_1] ++ pushEncode taproot_key.ser

/-- The funding-output selection loop of `reveal_tx` (lines 183-193):
first output whose `value` is exactly 100000, together with its index. -/
def find_commit_output_loop : List TxOutM → Nat → Option (Nat × TxOutM)
  | [], _ => none
  | out :: rest, i =>
    if out.value = 100000 then some (i, out)
    else find_commit_output_loop rest (i + 1)

/-- Funding-output selection over a whole output list, starting at 0. -/
def find_commit_output (outs : List TxOutM) : Option (Nat × TxOutM) :=
  find_commit_output_loop outs 0

/-- The reveal transaction before signing (lines 236-256): version 2,
lock time 0, one input spending `(txid raw_commit, commit_idx)` whose
`script_sig` carries the embedding script, and one output of 1000
satoshi paying to the spender's taproot script. -/
def reveal_unsigned (c : Crypto) (raw_commit : TransactionM) (commit_idx : Nat)
    (pk_script p2tr_script : List Nat) : TransactionM :=
  { version := 2
    lock_time := 0
    input := [{ previous_output := { txid := c.txidOf raw_commit, vout := commit_idx }
                script_sig := pk_script
                sequence := 0xffffffff
                witness := [] }]
    output := [{ value := 1000, script_pubkey := p2tr_script }] }

/-- Body of `reveal_tx` after the funding output has been located
(lines 197-277), up to but excluding the broadcast: rebuild the embedding
script and taproot commitment, derive the control block, assemble and
sign the spending transaction, and attach the witness stack
`[signature, pubkey serialization, control block]`.  The
`taproot_signature_hash(commit_idx, Prevouts::All(&[commit_output]), ..)
.unwrap()` panics when `commit_idx` is not a valid input index of the
1-input transaction being signed. -/
def reveal_build (c : Crypto) (embedded_data : List Nat) (raw_commit : TransactionM)
    (commit_idx : Nat) (commit_output : TxOutM) :
    RunResult (Except BitcoinError TransactionM) :=
  match c.fromWif BOB_PRIVATE_KEY with
  | none => .ok (.error .PrivateKeyErr)
  | some priv_key =>
    let pub_key := c.publicKey priv_key
    let pk_script := reveal_script pub_key embedded_data
    match c.fromWif INTERNAL_PRIVATE_KEY with
    | none => .panic "called Option::unwrap on a None value"
    | some internal_pkey =>
      let internal_pub_key := c.publicKey internal_pkey
      let output_key := c.outputKey (c.xonly internal_pub_key) pk_script
      let p2tr_script := pay_to_taproot_script output_key
      match c.controlBlock (c.xonly internal_pub_key) pk_script with
      | none => .ok (.error .ControlBlockErr)
      | some control_block =>
        let tx := reveal_unsigned c raw_commit commit_idx pk_script p2tr_script
        if commit_idx < tx.input.length then
          let sh := c.sighash tx commit_idx [commit_output]
          let sig := c.signSchnorr sh priv_key
          .ok (.ok { tx with
            input := [{ previous_output := { txid := c.txidOf raw_commit
                                             vout := commit_idx }
                        script_sig := pk_script
                        sequence := 0xffffffff
                        witness := [sig, pub_key.ser, control_block] }] })
        else .panic "called Result::unwrap on an Err value"

/-- `Relayer::reveal_tx` (lines 177-288): fetch the commit transaction
(`.unwrap()` panics on RPC failure), select the funding output (both
`ok_or(TransactionErr)` checks), build and sign the reveal transaction,
broadcast it (`RevealErr` on failure). -/
def reveal_tx (c : Crypto) (client : Client) (embedded_data : List Nat)
    (commit_hash : Txid) : RunResult (Except BitcoinError Txid) :=
  match client.get_raw_transaction commit_hash with
  | none => .panic "called Result::unwrap on an Err value"
  | some raw_commit =>
    match find_commit_output raw_commit.output with
    | none => .ok (.error .TransactionErr)
    | some (commit_idx, commit_output) =>
      match reveal_build c embedded_data raw_commit commit_idx commit_output with
      | .panic msg => .panic msg
      | .ok (.error e) => .ok (.error e)
      | .ok (.ok tx) =>
        match client.send_raw_transaction tx with
        | none => .ok (.error .RevealErr)
        | some txid => .ok (.ok txid)

/-- `Relayer::commit_tx` (lines 155-172): parse the address
(`InvalidAddress` on failure), require `address_type() == Some(P2tr)`
(`InvalidAddress` otherwise), then send the fixed amount.  Rust's
`Amount::from_btc(0.001)` parses to exactly 100000 satoshi (the
`BadAmount` arm is dead for this constant). -/
def commit_tx (c : Crypto) (client : Client) (addr : String) :
    Except BitcoinError Txid :=
  match c.addressFromStr addr with
  | none => .error .InvalidAddress
  | some address =>
    match address.addrType with
    | some .p2tr =>
      match client.send_to_address address 100000 with
      | none => .error .SendToAddressError
      | some hash => .ok hash
    | _ => .error .InvalidAddress

/-- The entries of `TemplateMatch` (lines 392-398), with the same field
defaults as `#[derive(Default)]`. -/
structure TemplateMatch where
  expect_push_data : Bool := false
  max_push_datas : Nat := 0
  opcode : Nat := 0
  extracted_data : List Nat := []

/-- The six-entry `template` array of `extract_push_data` (lines 401-428). -/
def extractTemplate : List TemplateMatch :=
  [ { opcode := OP_FALSE },
    { opcode := OP_IF },
    { expect_push_data := true, max_push_datas := 10 },
    { opcode := OP_ENDIF },
    { expect_push_data := true, max_push_datas := 1 },
    { opcode := OP_CHECKSIG } ]

/-- `LeafVersion::from_consensus` of the `bitcoin` crate: `TapScript`
(0xc0) succeeds, the annex byte 0x50 and every odd value fail, every
other even value is a future leaf version. -/
def leafVersionFromConsensus (version : Nat) : Option Nat :=
  if version = 0xc0 then some version
  else if version = 0x50 then none
  else if version % 2 = 1 then none
  else some version

/-- The `while let Some(op) = tokenizer.next()` loop of
`extract_push_data` (lines 451-469), iterated over the scripts yielded by
`TapTree::script_leaves`.  Each leaf: bail out with no match once the
template is exhausted, panic when the leaf script has no first opcode,
return no match when a non-push template entry disagrees with the first
opcode, otherwise advance `template_offset`.  `some offset` is the final
offset when the iterator is exhausted. -/
def templateLoop (template : List TemplateMatch) :
    List (List Nat) → Nat → RunResult (Option Nat)
  | [], offset => .ok (some offset)
  | leaf :: rest, offset =>
    if h : offset < template.length then
      let tpl := template.get ⟨offset, h⟩
      match leaf.head? with
      | none => .panic "extract_push_data: non existing first opcode"
      | some opcode =>
        if tpl.expect_push_data = false ∧ ¬ (opcode = tpl.opcode) then .ok none
        else templateLoop template rest (offset + 1)
    else .ok none

/-- `extract_push_data` (lines 400-475).  `LeafVersion::from_consensus`
failure panics.  `NodeInfo::new_leaf_with_ver` wraps the whole
`pk_script` as a single leaf, so `TapTree::try_from` always succeeds
(the `Err` panic arm is dead) and `script_leaves` yields exactly one
leaf whose script is `pk_script` itself; the loop therefore runs once.
On success the function returns `template[2].extracted_data`, a field no
statement of the function ever writes, hence always `[]`. -/
def extract_push_data (version : Nat) (pk_script : List Nat) :
    RunResult (Option (List Nat)) :=
  match leafVersionFromConsensus version with
  | none => .panic "extract_push_data: failed to get version"
  | some _ =>
    match templateLoop extractTemplate [pk_script] 0 with
    | .panic msg => .panic msg
    | .ok none => .ok none
    | .ok (some _) => .ok (some (extractTemplate.getD 2 {}).extracted_data)

/-- `Relayer::read_transaction` (lines 290-311): fetch the transaction
(`InvalidTxHash` on RPC failure), and when input 0 carries more than one
witness element, run `extract_push_data` on witness element 1 and strip
the protocol tag.  `tx.input[0]` panics when the transaction has no
inputs. -/
def read_transaction (client : Client) (hash : Txid) :
    RunResult (Except BitcoinError (List Nat)) :=
  match client.get_raw_transaction hash with
  | none => .ok (.error .InvalidTxHash)
  | some tx =>
    match tx.input.head? with
    | none => .panic "index out of bounds: the len is 0 but the index is 0"
    | some in0 =>
      if 1 < in0.witness.length then
        match in0.witness.get? 1 with
        | none => .panic "index out of bounds"
        | some w =>
          match extract_push_data 0 w with
          | .panic msg => .panic msg
          | .ok none => .ok (.error .InvalidTxHash)
          | .ok (some push_data) =>
            if PROTOCOL_ID.isPrefixOf push_data then
              .ok (.ok (push_data.drop PROTOCOL_ID.length))
            else .ok (.error .InvalidTxHash)
      else .ok (.error .InvalidTxHash)

/-- The per-transaction scan loop of `Relayer::read` (lines 336-347):
for each transaction, look at witness element 1 of input 0 (`nth`
returns an option; `tx.input[0]` panics when there are no inputs), run
`extract_push_data`, and keep tag-prefixed results with the tag
stripped. -/
def read_scan : List TransactionM → RunResult (List (List Nat))
  | [] => .ok []
  | tx :: rest =>
    match tx.input.head? with
    | none => .panic "index out of bounds: the len is 0 but the index is 0"
    | some in0 =>
      match in0.witness.get? 1 with
      | none => read_scan rest
      | some w =>
        match extract_push_data 0 w with
        | .panic msg => .panic msg
        | .ok none => read_scan rest
        | .ok (some push_data) =>
          if PROTOCOL_ID.isPrefixOf push_data then
            match read_scan rest with
            | .panic msg => .panic msg
            | .ok ds => .ok (push_data.drop PROTOCOL_ID.length :: ds)
          else read_scan rest

/-- `Relayer::read` (lines 313-349): resolve height to block hash and
block, panicking (`panic!`) on either RPC failure, then scan the block's
transactions. -/
def read (client : Client) (height : Nat) : RunResult (List (List Nat)) :=
  match client.get_block_hash height with
  | none => .panic "read: failed to get block hash"
  | some block_hash =>
    match client.get_block block_hash with
    | none => .panic "read: failed to get block"
    | some block => read_scan block.txdata

/-- `Relayer::write` (lines 351-362): tag-prefix the payload, derive the
taproot address, commit, then reveal. -/
def write (c : Crypto) (client : Client) (data : List Nat) :
    RunResult (Except BitcoinError Txid) :=
  let data_with_id := PROTOCOL_ID ++ data
  match create_taproot_address c data_with_id with
  | .panic msg => .panic msg
  | .ok (.error e) => .ok (.error e)
  | .ok (.ok address) =>
    match commit_tx c client address with
    | .error e => .ok (.error e)
    | .ok hash => reveal_tx c client data_with_id hash

/-! ## Concrete instances used to evaluate the model on closed inputs -/

/-- A concrete `Crypto` bundle (parameterized by the address parser):
every primitive returns a fixed value of the shape the Rust types
guarantee. -/
def mkCrypto (addr : String → Option AddressM) : Crypto where
  fromWif := fun _ => some ⟨"key"⟩
  publicKey := fun _ => ⟨List.replicate 33 2⟩
  xonly := fun _ => ⟨List.replicate 32 3⟩
  outputKey := fun _ _ => ⟨List.replicate 32 4⟩
  controlBlock := fun _ _ => some [7]
  sighash := fun _ _ _ => [9]
  signSchnorr := fun _ _ => List.replicate 64 1
  p2trAddress := fun _ => "bc1p-test"
  addressFromStr := addr
  txidOf := fun _ => 0
  publicKey_ser_len := fun _ => by simp
  signSchnorr_len := fun _ _ => by simp

/-- Concrete crypto whose address parser rejects every string. -/
def c0 : Crypto := mkCrypto fun _ => none

/-- Concrete crypto whose address parser yields a taproot address. -/
def cTaproot : Crypto := mkCrypto fun _ => some ⟨some .p2tr⟩

/-- Concrete crypto whose address parser yields a legacy address. -/
def cLegacy : Crypto := mkCrypto fun _ => some ⟨some .p2pkh⟩

/-- A client whose every RPC fails. -/
def clientNone : Client where
  get_raw_transaction := fun _ => none
  send_raw_transaction := fun _ => none
  send_to_address := fun _ _ => none
  get_block_hash := fun _ => none
  get_block := fun _ => none

/-- A commit transaction with no output of value 100000. -/
def txNoFunding : TransactionM where
  version := 2
  lock_time := 0
  input := []
  output := [⟨5000, []⟩, ⟨99999, []⟩]

/-- A client serving `txNoFunding` and accepting every broadcast and
send as txid 42. -/
def clientNoFunding : Client where
  get_raw_transaction := fun _ => some txNoFunding
  send_raw_transaction := fun _ => some 42
  send_to_address := fun _ _ => some 42
  get_block_hash := fun _ => none
  get_block := fun _ => none

/-- A concrete funding output of the expected amount. -/
def out0 : TxOutM := ⟨100000, []⟩

/-- The concrete 33-byte public key serialization of `c0`. -/
def pk0 : PubKey := ⟨List.replicate 33 2⟩

/-- A script that is a bare `OP_FALSE` followed by eleven 1-byte pushes
inside the bracket, i.e. more pushes than the template's maximum of 10. -/
def script_eleven_pushes : List Nat :=
  [OP_FALSE, OP_IF] ++ (List.replicate 11 [1, 0xaa]).flatten
    ++ [OP_ENDIF, 1, 0xbb, OP_CHECKSIG]

/-- Observation helper: the witness stacks (one per input) of the
transaction built by a successful `reveal_build` run. -/
def builtWitnessStacks : RunResult (Except BitcoinError TransactionM) →
    Option (List (List (List Nat)))
  | .ok (.ok tx) => some (tx.input.map fun i => i.witness)
  | _ => none

/-! ## Helper lemmas -/

theorem chunk_slice_nil (n : Nat) : chunk_slice [] n = [] := by
  unfold chunk_slice
  simp

theorem chunk_slice_cons {l : List Nat} {n : Nat} (hl : l ≠ []) (hn : n ≠ 0) :
    chunk_slice l n = l.take n :: chunk_slice (l.drop n) n := by
  rw [chunk_slice]
  rw [dif_neg]
  simp [hl, hn]

theorem chunk_slice_flatten (n : Nat) (hn : n ≠ 0) :
    ∀ (k : Nat) (l : List Nat), l.length ≤ k → (chunk_slice l n).flatten = l := by
  intro k
  induction k with
  | zero =>
    intro l hl
    have h0 : l = [] := List.length_eq_zero.mp (Nat.le_zero.mp hl)
    subst h0
    simp [chunk_slice_nil]
  | succ k ih =>
    intro l hl
    by_cases h0 : l = []
    · subst h0; simp [chunk_slice_nil]
    · rw [chunk_slice_cons h0 hn]
      have hlen : (l.drop n).length ≤ k := by
        have h1 : 0 < l.length := List.length_pos.mpr h0
        have h2 : 0 < n := Nat.pos_of_ne_zero hn
        simp only [List.length_drop]
        omega
      rw [List.flatten_cons, ih (l.drop n) hlen, List.take_append_drop]

theorem chunk_slice_length_520 :
    ∀ (k : Nat) (l : List Nat), l.length ≤ k →
      (chunk_slice l 520).length = (l.length + 519) / 520 := by
  intro k
  induction k with
  | zero =>
    intro l hl
    have h0 : l = [] := List.length_eq_zero.mp (Nat.le_zero.mp hl)
    subst h0
    simp [chunk_slice_nil]
  | succ k ih =>
    intro l hl
    by_cases h0 : l = []
    · subst h0; simp [chunk_slice_nil]
    · rw [chunk_slice_cons h0 (by omega)]
      have h1 : 0 < l.length := List.length_pos.mpr h0
      have hlen : (l.drop 520).length ≤ k := by
        simp only [List.length_drop]
        omega
      rw [List.length_cons, ih (l.drop 520) hlen]
      simp only [List.length_drop]
      omega

theorem extract_cons_zero (t : List Nat) :
    extract_push_data 0 (0 :: t) = .ok (some []) := rfl

theorem extract_cons_nonzero {v b : Nat} {t : List Nat}
    (hv : leafVersionFromConsensus v ≠ none) (hb : b ≠ 0) :
    extract_push_data v (b :: t) = .ok none := by
  obtain ⟨ver, hl⟩ := Option.ne_none_iff_exists'.mp hv
  simp [extract_push_data, hl, templateLoop, extractTemplate, OP_FALSE, hb]

theorem extract_ok_some_empty {v : Nat} {s l : List Nat}
    (h : extract_push_data v s = .ok (some l)) : l = [] := by
  unfold extract_push_data at h
  split at h
  · exact absurd h (by simp)
  · split at h
    · exact absurd h (by simp)
    · exact absurd h (by simp)
    · simp only [RunResult.ok.injEq, Option.some.injEq] at h
      exact h.symm

/-! ## Claims -/

/-- C4: `chunk_slice` with chunk size 520 splits any byte sequence of
length `L` into exactly `ceil(L / 520)` chunks whose in-order
concatenation is the input; a tag-prefixed payload of 520 bytes
(520 − 4 payload bytes plus the 4 tag bytes) fits in one chunk, 521
bytes need two, and the 0-byte payload still yields the embedding
script whose single chunk is exactly the protocol tag. -/
theorem c4_chunking :
    (∀ l : List Nat, (chunk_slice l 520).flatten = l) ∧
    (∀ l : List Nat, (chunk_slice l 520).length = (l.length + 519) / 520) ∧
    (chunk_slice (List.replicate 520 0) 520).length = 1 ∧
    (chunk_slice (List.replicate 521 0) 520).length = 2 ∧
    (∀ pk : PubKey, cta_script pk PROTOCOL_ID =
      [OP_FALSE, OP_IF] ++ pushEncode PROTOCOL_ID ++ [OP_ENDIF]
        ++ pushEncode pk.ser ++ [OP_CHECKSIG]) := by
  refine ⟨fun l => chunk_slice_flatten 520 (by omega) l.length l le_rfl,
    fun l => chunk_slice_length_520 l.length l le_rfl, ?_, ?_, ?_⟩
  · rw [chunk_slice_length_520 520 (List.replicate 520 0) (by simp)]
    simp
  · rw [chunk_slice_length_520 521 (List.replicate 521 0) (by simp)]
    simp
  · intro pk
    have h4 : chunk_slice PROTOCOL_ID 520 = [PROTOCOL_ID] := by
      rw [chunk_slice_cons (by simp [PROTOCOL_ID]) (by omega)]
      simp [PROTOCOL_ID, chunk_slice_nil]
    simp [cta_script, h4]

/-- C1 (code-bug evidence): the claim fails on the code.  For every
public key and payload `P`, `extract_push_data` applied to the embedding
script built for the tag-prefixed payload does return a match, but the
match is always the EMPTY byte string, never `tag ++ P`: the loop
iterates tap-tree leaves (exactly one — the whole script) instead of
script tokens and `template[2].extracted_data` is never written.
Consequently `read_transaction` can never return a payload: the empty
match never starts with the 4-byte tag. -/
theorem c1_extract_returns_empty :
    (∀ (pk : PubKey) (P : List Nat),
      extract_push_data 0 (cta_script pk (PROTOCOL_ID ++ P)) = .ok (some []) ∧
      PROTOCOL_ID ++ P ≠ []) ∧
    (∀ (client : Client) (h : Txid) (p : List Nat),
      read_transaction client h ≠ .ok (.ok p)) := by
  constructor
  · intro pk P
    exact ⟨extract_cons_zero _, by simp [PROTOCOL_ID]⟩
  · intro client h p hcontra
    unfold read_transaction at hcontra
    split at hcontra
    · exact absurd hcontra (by simp)
    · split at hcontra
      · exact absurd hcontra (by simp)
      · split at hcontra
        · split at hcontra
          · exact absurd hcontra (by simp)
          · split at hcontra
            · exact absurd hcontra (by simp)
            · exact absurd hcontra (by simp)
            · rename_i push_data heq
              have hempty := extract_ok_some_empty heq
              subst hempty
              simp [PROTOCOL_ID, List.isPrefixOf] at hcontra
        · exact absurd hcontra (by simp)

/-- C2 (code-bug evidence): the claim fails on the code.  The matcher
accepts scripts that are not template-shaped: a bare `OP_FALSE`, a
script with eleven pushes inside the bracket (more than the template's
maximum of 10), and an `OP_FALSE` followed by a wrong opcode sequence
all return a match (`some []`), because only the first template entry is
ever compared (the "tokenizer" yields the whole script as a single
tap-tree leaf). -/
theorem c2_matcher_not_strict :
    extract_push_data 0 [OP_FALSE] = .ok (some []) ∧
    extract_push_data 0 script_eleven_pushes = .ok (some []) ∧
    extract_push_data 0 [OP_FALSE, OP_CHECKSIG, OP_CHECKSIG] = .ok (some []) := by
  exact ⟨rfl, rfl, rfl⟩

/-- C3 counterexample: the claim that the matcher and the block/height
read path never abort is false on the code: an unexpected (odd) leaf
version panics `extract_push_data`, and a failed block-hash fetch panics
`Relayer::read`. -/
theorem c3_counterexample :
    extract_push_data 1 [OP_FALSE] =
      .panic "extract_push_data: failed to get version" ∧
    read clientNone 0 = .panic "read: failed to get block hash" :=
  ⟨rfl, rfl⟩

/-- C3 (amended): the matcher is total — returning an explicit match or
no-match — exactly on valid (even, non-0x50) leaf versions and scripts
with a first opcode; it panics on invalid leaf versions and on empty
scripts, and `Relayer::read` panics when the block-hash fetch fails
instead of returning a typed error. -/
theorem c3_totality_amended :
    (∀ (v : Nat) (s : List Nat), leafVersionFromConsensus v ≠ none → s ≠ [] →
      extract_push_data v s = .ok none ∨ extract_push_data v s = .ok (some [])) ∧
    (∀ (v : Nat) (s : List Nat), leafVersionFromConsensus v = none →
      extract_push_data v s = .panic "extract_push_data: failed to get version") ∧
    (∀ v : Nat, leafVersionFromConsensus v ≠ none →
      extract_push_data v [] =
        .panic "extract_push_data: non existing first opcode") ∧
    (∀ (client : Client) (height : Nat), client.get_block_hash height = none →
      read client height = .panic "read: failed to get block hash") := by
  refine ⟨?_, ?_, ?_, ?_⟩
  · intro v s hv hs
    match s with
    | [] => exact absurd rfl hs
    | b :: t =>
      by_cases hb : b = 0
      · subst hb
        obtain ⟨ver, hl⟩ := Option.ne_none_iff_exists'.mp hv
        right
        simp [extract_push_data, hl, templateLoop, extractTemplate, OP_FALSE]
      · exact Or.inl (extract_cons_nonzero hv hb)
  · intro v s hv
    simp [extract_push_data, hv]
  · intro v hv
    obtain ⟨ver, hl⟩ := Option.ne_none_iff_exists'.mp hv
    simp [extract_push_data, hl, templateLoop, extractTemplate]
  · intro client height hc
    simp [read, hc]

/-- C3 witness: the amended theorem evaluated at concrete inputs. -/
theorem c3_witness :
    (extract_push_data 0xc0 [0xac] = .ok none ∨
      extract_push_data 0xc0 [0xac] = .ok (some [])) ∧
    extract_push_data 0x50 [OP_FALSE] =
      .panic "extract_push_data: failed to get version" ∧
    extract_push_data 0xc0 [] =
      .panic "extract_push_data: non existing first opcode" ∧
    read clientNone 7 = .panic "read: failed to get block hash" :=
  ⟨c3_totality_amended.1 0xc0 [0xac] (by decide) (by decide),
    c3_totality_amended.2.1 0x50 [OP_FALSE] (by decide),
    c3_totality_amended.2.2.1 0xc0 (by decide),
    c3_totality_amended.2.2.2 clientNone 7 rfl⟩

/-- C5 counterexample: the claim that the embedding script pushes a
32-byte x-only key between `OP_ENDIF` and `OP_CHECKSIG` is false on the
code: the concrete script built for the empty payload admits no
decomposition whose final push before `OP_CHECKSIG` carries 32 bytes
(it carries the 33-byte compressed serialization). -/
theorem c5_counterexample :
    ¬ (∃ pre key : List Nat, key.length = 32 ∧
        cta_script pk0 [] = pre ++ [OP_ENDIF] ++ pushEncode key ++ [OP_CHECKSIG]) := by
  rintro ⟨pre, key, hk, heq⟩
  have hpk : pushEncode key = 32 :: key := by simp [pushEncode, hk]
  have hs : cta_script pk0 [] =
      0 :: 0x63 :: 0x68 :: 33 :: (List.replicate 33 2 ++ [0xac]) := by
    simp [cta_script, pk0, chunk_slice_nil, pushEncode, OP_FALSE, OP_IF,
      OP_ENDIF, OP_CHECKSIG]
  rw [hs, hpk] at heq
  have hlen := congrArg List.length heq
  simp only [List.length_cons, List.length_append, List.length_replicate,
    List.length_nil, hk] at hlen
  have hpre : pre.length = 3 := by omega
  obtain ⟨p0, p1, p2, rfl⟩ := List.length_eq_three.mp hpre
  simp [OP_ENDIF, OP_CHECKSIG] at heq

/-- C5 (amended): for every payload, the embedding script built by
`create_taproot_address` (and identically rebuilt by `reveal_tx`)
pushes, after `OP_ENDIF` and before `OP_CHECKSIG`, the spender public
key serialized as exactly 33 bytes in compressed SEC form
(`PublicKey::serialize`), not as a 32-byte x-only key. -/
theorem c5_pubkey_push_amended (c : Crypto) (data : List Nat) (k : PrivKey)
    (hb : c.fromWif BOB_PRIVATE_KEY = some k) :
    cta_script (c.publicKey k) data =
      [OP_FALSE, OP_IF] ++ ((chunk_slice data 520).map pushEncode).flatten
        ++ [OP_ENDIF] ++ (33 :: (c.publicKey k).ser) ++ [OP_CHECKSIG] ∧
    (c.publicKey k).ser.length = 33 ∧
    reveal_script (c.publicKey k) data = cta_script (c.publicKey k) data := by
  have h33 := c.publicKey_ser_len k
  refine ⟨?_, h33, rfl⟩
  simp [cta_script, pushEncode, h33]

/-- C5 witness: the amended theorem evaluated at the concrete crypto
bundle and the empty payload. -/
theorem c5_witness :
    cta_script (c0.publicKey ⟨"key"⟩) [] =
      [OP_FALSE, OP_IF] ++ ((chunk_slice ([] : List Nat) 520).map pushEncode).flatten
        ++ [OP_ENDIF] ++ (33 :: (c0.publicKey ⟨"key"⟩).ser) ++ [OP_CHECKSIG] ∧
    (c0.publicKey ⟨"key"⟩).ser.length = 33 ∧
    reveal_script (c0.publicKey ⟨"key"⟩) [] = cta_script (c0.publicKey ⟨"key"⟩) [] :=
  c5_pubkey_push_amended c0 [] ⟨"key"⟩ rfl

theorem find_commit_output_loop_none :
    ∀ (outs : List TxOutM) (i : Nat), (∀ o ∈ outs, o.value ≠ 100000) →
      find_commit_output_loop outs i = none := by
  intro outs
  induction outs with
  | nil => intro i _; rfl
  | cons a t ih =>
    intro i h
    unfold find_commit_output_loop
    rw [if_neg (h a (List.mem_cons_self a t))]
    exact ih (i + 1) fun o ho => h o (List.mem_cons_of_mem a ho)

theorem find_commit_output_loop_spec :
    ∀ (outs : List TxOutM) (i j : Nat) (out : TxOutM),
      find_commit_output_loop outs i = some (j, out) →
      i ≤ j ∧ outs[j - i]? = some out ∧ out.value = 100000 ∧
        ∀ m, m < j - i → ∀ om, outs[m]? = some om → om.value ≠ 100000 := by
  intro outs
  induction outs with
  | nil => intro i j out h; simp [find_commit_output_loop] at h
  | cons a t ih =>
    intro i j out h
    unfold find_commit_output_loop at h
    by_cases ha : a.value = 100000
    · rw [if_pos ha] at h
      simp only [Option.some.injEq, Prod.mk.injEq] at h
      obtain ⟨rfl, rfl⟩ := h
      refine ⟨le_rfl, by simp, ha, ?_⟩
      intro m hm
      omega
    · rw [if_neg ha] at h
      obtain ⟨h1, h2, h3, h4⟩ := ih (i + 1) j out h
      refine ⟨by omega, ?_, h3, ?_⟩
      · have hji : j - i = (j - (i + 1)) + 1 := by omega
        rw [hji]
        simpa using h2
      · intro m hm om hom
        match m with
        | 0 =>
          simp only [List.getElem?_cons_zero, Option.some.injEq] at hom
          subst hom
          exact ha
        | m' + 1 =>
          apply h4 m' (by omega)
          simpa using hom

/-- C6: `reveal_tx` selects as funding output the first output (lowest
index) of the commit transaction whose value equals 100000 exactly, and
returns the typed error `BitcoinError::TransactionErr` when no output
matches — for every behaviour of the remaining RPCs, i.e. before
anything is constructed or broadcast. -/
theorem c6_funding_selection (c : Crypto) (client : Client) (data : List Nat)
    (h : Txid) (tx : TransactionM)
    (hfetch : client.get_raw_transaction h = some tx) :
    ((∀ o ∈ tx.output, o.value ≠ 100000) →
      reveal_tx c client data h = .ok (.error .TransactionErr)) ∧
    (∀ j out, find_commit_output tx.output = some (j, out) →
      tx.output[j]? = some out ∧ out.value = 100000 ∧
        ∀ m, m < j → ∀ om, tx.output[m]? = some om → om.value ≠ 100000) := by
  constructor
  · intro hnone
    simp only [reveal_tx, hfetch, find_commit_output,
      find_commit_output_loop_none tx.output 0 hnone]
  · intro j out hfind
    obtain ⟨h1, h2, h3, h4⟩ := find_commit_output_loop_spec tx.output 0 j out hfind
    simp only [Nat.sub_zero] at h2 h4
    exact ⟨h2, h3, fun m hm om hom => h4 m (by omega) om hom⟩

/-- C6 witness: the selection theorem evaluated on a client serving a
commit transaction with no output of value 100000. -/
theorem c6_witness :
    reveal_tx c0 clientNoFunding [] 7 = .ok (.error .TransactionErr) :=
  (c6_funding_selection c0 clientNoFunding [] 7 txNoFunding rfl).1 (by decide)

/-- C7: the two phases link by the exact constants: `commit_tx` funds
the taproot address with exactly 100000 satoshi
(`Amount::from_btc(0.001)`), `reveal_tx`'s selection loop accepts only
outputs of exactly 100000 satoshi, and the reveal transaction's single
output carries exactly 1000 satoshi. -/
theorem c7_link_constants :
    (∀ (c : Crypto) (client : Client) (addr : String) (a : AddressM),
      c.addressFromStr addr = some a → a.addrType = some .p2tr →
      commit_tx c client addr =
        (match client.send_to_address a 100000 with
          | none => .error .SendToAddressError
          | some hash => .ok hash)) ∧
    (∀ (outs : List TxOutM) (j : Nat) (out : TxOutM),
      find_commit_output outs = some (j, out) → out.value = 100000) ∧
    (∀ (c : Crypto) (data : List Nat) (raw : TransactionM) (idx : Nat)
        (out : TxOutM) (tx : TransactionM),
      reveal_build c data raw idx out = .ok (.ok tx) →
      tx.output.map (fun o => o.value) = [1000]) := by
  refine ⟨?_, ?_, ?_⟩
  · intro c client addr a ha hat
    simp only [commit_tx, ha, hat]
  · intro outs j out hfind
    exact (find_commit_output_loop_spec outs 0 j out hfind).2.2.1
  · intro c data raw idx out tx h
    simp only [reveal_build] at h
    split at h
    · exact absurd h (by simp)
    · split at h
      · exact absurd h (by simp)
      · split at h
        · exact absurd h (by simp)
        · split at h
          · simp only [RunResult.ok.injEq, Except.ok.injEq] at h
            subst h
            simp [reveal_unsigned]
          · exact absurd h (by simp)

/-- C7 witness: the constants theorem evaluated at concrete inputs. -/
theorem c7_witness :
    commit_tx cTaproot clientNoFunding "addr" = .ok 42 ∧
    (⟨100000, ([1] : List Nat)⟩ : TxOutM).value = 100000 :=
  ⟨(c7_link_constants.1 cTaproot clientNoFunding "addr" ⟨some .p2tr⟩ rfl rfl).trans
      rfl,
    c7_link_constants.2.1 [⟨5000, []⟩, ⟨100000, [1]⟩] 1 ⟨100000, [1]⟩ rfl⟩

/-- C8 counterexample: the claim that the reveal witness stack's second
element is the spender public key serialized as 32 bytes x-only is false
on the code: a concrete successful build yields a 3-element stack whose
second element has 33 bytes (the compressed SEC serialization). -/
theorem c8_counterexample :
    ¬ (∃ sig pk cb : List Nat,
        builtWitnessStacks (reveal_build c0 [] txNoFunding 0 out0) =
          some [[sig, pk, cb]] ∧ pk.length = 32) := by
  rintro ⟨sig, pk, cb, h, hl⟩
  have hrun : builtWitnessStacks (reveal_build c0 [] txNoFunding 0 out0) =
      some [[List.replicate 64 1, List.replicate 33 2, [7]]] := rfl
  rw [hrun] at h
  simp only [Option.some.injEq, List.cons.injEq, eq_self_iff_true,
    and_true] at h
  obtain ⟨hsig, hpk, hcb⟩ := h
  rw [← hpk] at hl
  simp at hl

/-- C8 (amended): for every successful reveal build, the witness stack
of the single input consists of exactly 3 elements in this order: the
Schnorr signature (64 bytes), the spender public key serialized as 33
bytes in compressed SEC form (not 32-byte x-only), and the control
block. -/
theorem c8_witness_stack (c : Crypto) (data : List Nat) (raw : TransactionM)
    (idx : Nat) (out : TxOutM) (k ik : PrivKey) (cb : List Nat)
    (hb : c.fromWif BOB_PRIVATE_KEY = some k)
    (hi : c.fromWif INTERNAL_PRIVATE_KEY = some ik)
    (hcb : c.controlBlock (c.xonly (c.publicKey ik))
        (reveal_script (c.publicKey k) data) = some cb)
    (hidx : idx = 0) :
    builtWitnessStacks (reveal_build c data raw idx out) =
      some [[c.signSchnorr
              (c.sighash
                (reveal_unsigned c raw idx (reveal_script (c.publicKey k) data)
                  (pay_to_taproot_script (c.outputKey (c.xonly (c.publicKey ik))
                    (reveal_script (c.publicKey k) data))))
                idx [out]) k,
            (c.publicKey k).ser, cb]] ∧
    (c.publicKey k).ser.length = 33 ∧
    (c.signSchnorr
        (c.sighash
          (reveal_unsigned c raw idx (reveal_script (c.publicKey k) data)
            (pay_to_taproot_script (c.outputKey (c.xonly (c.publicKey ik))
              (reveal_script (c.publicKey k) data))))
          idx [out]) k).length = 64 := by
  subst hidx
  refine ⟨?_, c.publicKey_ser_len k, c.signSchnorr_len _ k⟩
  simp [reveal_build, hb, hi, hcb, builtWitnessStacks, reveal_unsigned]

/-- C8 witness: the amended witness-stack theorem evaluated at the
concrete crypto bundle. -/
theorem c8_witness :
    (c0.publicKey ⟨"key"⟩).ser.length = 33 :=
  (c8_witness_stack c0 [] txNoFunding 0 out0 ⟨"key"⟩ ⟨"key"⟩ [7]
    rfl rfl rfl rfl).2.1

/-- C9: `commit_tx` accepts only taproot addresses: a string that fails
to parse, or parses to any non-P2TR address type, yields
`InvalidAddress` for every behaviour of the send RPC (hence before any
funds are sent); on success the address parsed to P2TR and exactly
100000 satoshi were sent to it. -/
theorem c9_commit_guard (c : Crypto) (client : Client) (addr : String) :
    (c.addressFromStr addr = none →
      commit_tx c client addr = .error .InvalidAddress) ∧
    (∀ a, c.addressFromStr addr = some a → a.addrType ≠ some .p2tr →
      commit_tx c client addr = .error .InvalidAddress) ∧
    (∀ t, commit_tx c client addr = .ok t →
      ∃ a, c.addressFromStr addr = some a ∧ a.addrType = some .p2tr ∧
        client.send_to_address a 100000 = some t) := by
  refine ⟨?_, ?_, ?_⟩
  · intro hn
    simp [commit_tx, hn]
  · intro a ha hna
    obtain ⟨ty⟩ := a
    cases ty with
    | none => simp [commit_tx, ha]
    | some t =>
      cases t with
      | p2pkh => simp [commit_tx, ha]
      | p2sh => simp [commit_tx, ha]
      | p2wpkh => simp [commit_tx, ha]
      | p2wsh => simp [commit_tx, ha]
      | p2tr => exact absurd rfl hna
  · intro t ht
    unfold commit_tx at ht
    split at ht
    · exact absurd ht (by simp)
    · rename_i a ha
      split at ht
      · rename_i hat
        split at ht
        · exact absurd ht (by simp)
        · rename_i r hr
          simp only [Except.ok.injEq] at ht
          subst ht
          exact ⟨a, ha, hat, hr⟩
      · exact absurd ht (by simp)

/-- C9 witness: the guard theorem evaluated on an unparseable address
and on a parsed legacy (P2PKH) address. -/
theorem c9_witness :
    commit_tx c0 clientNone "x" = .error .InvalidAddress ∧
    commit_tx cLegacy clientNone "x" = .error .InvalidAddress :=
  ⟨(c9_commit_guard c0 clientNone "x").1 rfl,
    (c9_commit_guard cLegacy clientNone "x").2.1 ⟨some .p2pkh⟩ rfl (by decide)⟩

/-- C10: the embedding script and taproot commitment rebuilt inside
`reveal_tx` are byte-for-byte identical to those built by
`create_taproot_address` for the same data and the same fixed WIF
constants: the two scripts are equal, the address returned at write time
commits to the reveal-side script, and a successful reveal build carries
that same script in its input's `script_sig` with a control block
computed for exactly that script. -/
theorem c10_commit_reveal_agree (c : Crypto) (data : List Nat) (k ik : PrivKey)
    (hb : c.fromWif BOB_PRIVATE_KEY = some k)
    (hi : c.fromWif INTERNAL_PRIVATE_KEY = some ik) :
    reveal_script (c.publicKey k) data = cta_script (c.publicKey k) data ∧
    create_taproot_address c data =
      .ok (.ok (c.p2trAddress (c.outputKey (c.xonly (c.publicKey ik))
        (reveal_script (c.publicKey k) data)))) ∧
    (∀ (raw : TransactionM) (idx : Nat) (out : TxOutM) (tx : TransactionM),
      reveal_build c data raw idx out = .ok (.ok tx) →
      tx.input.map (fun i => i.script_sig) = [reveal_script (c.publicKey k) data] ∧
      tx.input.map (fun i => i.witness.getD 2 []) =
        [(c.controlBlock (c.xonly (c.publicKey ik))
          (reveal_script (c.publicKey k) data)).getD []]) := by
  refine ⟨rfl, ?_, ?_⟩
  · simp only [create_taproot_address, hb, hi]
    rfl
  · intro raw idx out tx h
    simp only [reveal_build, hb, hi] at h
    split at h
    · exact absurd h (by simp)
    · rename_i cb hcb
      split at h
      · simp only [RunResult.ok.injEq, Except.ok.injEq] at h
        subst h
        simp [hcb]
      · exact absurd h (by simp)

/-- C10 witness: the agreement theorem evaluated at the concrete crypto
bundle. -/
theorem c10_witness :
    reveal_script (c0.publicKey ⟨"key"⟩) [5] = cta_script (c0.publicKey ⟨"key"⟩) [5] :=
  (c10_commit_reveal_agree c0 [5] ⟨"key"⟩ ⟨"key"⟩ rfl rfl).1

end BitcoinDA
